import Mathlib

/-!
Shallow embedding of the tessera frontend selection / filtering / sampling core.

Conventions used throughout:
* JavaScript numbers are modelled by `ℚ` (exact arithmetic; `NaN`, `Infinity`
  and floating-point rounding are not modelled — every property below concerns
  values where the source stays within exact arithmetic).
* A JavaScript runtime value that may be `string | number | boolean` is the
  inductive `JsVal`; a possibly `null`/`undefined` slot is `Option JsVal`.
* A JS `Set<number>` whose iteration order is irrelevant to the property at
  hand is modelled by `Finset ℕ`; where iteration order matters it is a list.
* JS objects used as string-keyed maps are association lists
  (`List (String × _)`); property lookup is `List.lookup`.
-/

/-- Runtime value of a metadata cell: `string | number | boolean`
(src/frontend/src/utils/filtering.ts, value type of `evaluateFilter`). -/
inductive JsVal where
  | str : String → JsVal
  | num : ℚ → JsVal
  | bool : Bool → JsVal
deriving DecidableEq, Repr

/-- The `value` field of a `MetadataFilter`:
`string | number | boolean | (string | number)[]` (filtering.ts line 6).
Array elements are modelled as arbitrary runtime scalars. -/
inductive FilterValue where
  | scalar : JsVal → FilterValue
  | arr : List JsVal → FilterValue
deriving DecidableEq, Repr

/-- `MetadataFilter` record (filtering.ts lines 3-7).  The TypeScript type
restricts `operator` to seven string literals, but at runtime the field is an
arbitrary string and `evaluateFilter` switches on it with a `default` branch,
so it is modelled as `String`. -/
structure MetadataFilter where
  field : String
  operator : String
  value : FilterValue
deriving DecidableEq, Repr

/-- JavaScript strict equality `===` between two runtime scalars: equal only
when of the same runtime type and equal there. -/
def jsEq : JsVal → JsVal → Bool
  | .str a, .str b => a = b
  | .num a, .num b => a = b
  | .bool a, .bool b => a = b
  | _, _ => false

/-- Strict equality `value === filter.value`: a primitive scalar is never
`===` to an array object. -/
def jsEqFV (v : JsVal) : FilterValue → Bool
  | .scalar w => jsEq v w
  | .arr _ => false

/-- `evaluateFilter` (filtering.ts lines 12-58), the `switch` on
`filter.operator` written as the equivalent chain of string comparisons;
the `default` branch returns `true`. -/
def evaluateFilter (value : JsVal) (f : MetadataFilter) : Bool :=
  if f.operator = "equals" then
    jsEqFV value f.value
  else if f.operator = "not_equals" then
    !(jsEqFV value f.value)
  else if f.operator = "in" then
    match f.value with
    | .arr l => l.any (fun w => jsEq w value)
    | .scalar _ => false
  else if f.operator = "gt" then
    match value, f.value with
    | .num a, .scalar (.num b) => a > b
    | _, _ => false
  else if f.operator = "lt" then
    match value, f.value with
    | .num a, .scalar (.num b) => a < b
    | _, _ => false
  else if f.operator = "gte" then
    match value, f.value with
    | .num a, .scalar (.num b) => a ≥ b
    | _, _ => false
  else if f.operator = "lte" then
    match value, f.value with
    | .num a, .scalar (.num b) => a ≤ b
    | _, _ => false
  else
    true

/-- The `metadata` argument of `applyFilters`:
`Record<string, (string | number | boolean)[]>`, whose arrays may hold
`null`/`undefined` slots (checked at filtering.ts line 90). -/
def Metadata : Type := List (String × List (Option JsVal))

/-- The body of the per-episode loop of `applyFilters` (filtering.ts lines
79-99): an episode passes when every filter finds its field, finds a non-null
value at `idx`, and `evaluateFilter` accepts it.  The `for`-loop with `break`
on the first failure is the same function as `List.all`. -/
def episodePasses (metadata : Metadata) (filters : List MetadataFilter) (idx : ℕ) : Bool :=
  filters.all fun f =>
    match List.lookup f.field metadata with
    | none => false
    | some fieldValues =>
      match fieldValues.getD idx none with
      | none => false
      | some v => evaluateFilter v f

/-- `applyFilters` (filtering.ts lines 65-107).  With no filters it returns
the empty set (the sentinel the source comments call "no filtering"); otherwise
the set of indices in `[0, episodeCount)` passing every filter. -/
def applyFilters (metadata : Metadata) (filters : List MetadataFilter)
    (episodeCount : ℕ) : Finset ℕ :=
  if filters.length = 0 then ∅
  else (Finset.range episodeCount).filter fun idx => episodePasses metadata filters idx

/-- The filtering stage of the `points` memo in ScatterPlot.tsx (lines
190-213): one point is built per index below `n_episodes`, and a point is kept
unless (active filters exist and it is outside the pass-set) or
(`showSelectedOnly` and it is unselected).  Returned as the list of surviving
indices. -/
def visibleIndices (metadata : Metadata) (filters : List MetadataFilter)
    (nEpisodes : ℕ) (selected : Finset ℕ) (showSelectedOnly : Bool) : List ℕ :=
  let filteredIndices := applyFilters metadata filters nEpisodes
  (List.range nEpisodes).filter fun idx =>
    if filters.length > 0 && !(decide (idx ∈ filteredIndices)) then false
    else if showSelectedOnly && !(decide (idx ∈ selected)) then false
    else true

/-- `selectByRegion` of the project store (projectStore.ts lines 112-128).
`mode` is the string discriminant; the final `else` branch is the
`remove` case, exactly as in the source. -/
def selectByRegion (current : Finset ℕ) (indices : List ℕ) (mode : String) : Finset ℕ :=
  if mode = "replace" then
    indices.toFinset
  else if mode = "add" then
    indices.foldl (fun s i => insert i s) current
  else
    indices.foldl (fun s i => s.erase i) current

/-- Camera state used by the viewport transforms: `target` is the world-space
center and `scale` stands for `Math.pow(2, zoom)`.  For every real `zoom` the
scale is a positive number, so theorems quantify over a positive rational
`scale` rather than over `zoom` itself (2 ^ zoom is irrational for
non-integer zooms). -/
structure ViewState where
  targetX : ℚ
  targetY : ℚ
  scale : ℚ
deriving DecidableEq, Repr

/-- `screenToWorld` (geometry module, lines 7-26): screen pixel to
normalized device coordinates to world coordinates. -/
def screenToWorld (p : ℚ × ℚ) (vs : ViewState) (width height : ℚ) : ℚ × ℚ :=
  let ndcX := (p.1 / width) * 2 - 1
  let ndcY := 1 - (p.2 / height) * 2
  (vs.targetX + (ndcX * width) / (2 * vs.scale),
   vs.targetY + (ndcY * height) / (2 * vs.scale))

/-- `worldToScreen` (geometry module, lines 31-49): world coordinates to
normalized device coordinates to screen pixel. -/
def worldToScreen (p : ℚ × ℚ) (vs : ViewState) (width height : ℚ) : ℚ × ℚ :=
  let ndcX := ((p.1 - vs.targetX) * 2 * vs.scale) / width
  let ndcY := ((p.2 - vs.targetY) * 2 * vs.scale) / height
  (((ndcX + 1) / 2) * width,
   ((1 - ndcY) / 2) * height)

/-- One step of the ray-casting loop of `isPointInPolygon` (geometry module,
lines 64-73) for edge `(j, i)`: toggle `inside` when the horizontal ray from
the query point crosses the edge.  JavaScript `&&` short-circuits, so the
division by `yj - yi` is only reached when `yi > y` and `yj > y` differ, which
forces `yj ≠ yi`; rational division is total so no guard is needed here. -/
def rayStep (x y : ℚ) (pi pj : ℚ × ℚ) (inside : Bool) : Bool :=
  let xi := pi.1
  let yi := pi.2
  let xj := pj.1
  let yj := pj.2
  if (decide (yi > y) != decide (yj > y)) &&
      decide (x < ((xj - xi) * (y - yi)) / (yj - yi) + xi) then
    !inside
  else
    inside

/-- `isPointInPolygon` (geometry module, lines 55-76): even-odd ray casting;
polygons with fewer than 3 vertices are rejected up front. -/
def isPointInPolygon (point : ℚ × ℚ) (polygon : List (ℚ × ℚ)) : Bool :=
  if polygon.length < 3 then false
  else
    (List.range polygon.length).foldl
      (fun inside i =>
        let j := if i = 0 then polygon.length - 1 else i - 1
        rayStep point.1 point.2 (polygon.getD i (0, 0)) (polygon.getD j (0, 0)) inside)
      false

/-- The keys of the `clusterGroups` object built in `handleClusterSampling`
(SamplingPanel.tsx lines 72-81): the distinct non-noise labels.  JavaScript
enumerates integer-like object keys in ascending numeric order, which for the
non-negative integer labels produced by the clustering service is the sorted
order used here. -/
def clusterIds (labels : List ℤ) : List ℤ :=
  ((labels.filter fun l => decide (l ≠ -1)).dedup).insertionSort (· ≤ ·)

/-- `clusterGroups[c]` (SamplingPanel.tsx lines 73-79): the episode indices
carrying label `c`, in increasing index order (the `forEach` push order). -/
def clusterGroup (labels : List ℤ) (c : ℤ) : List ℕ :=
  (labels.enum.filter fun p => decide (p.2 = c)).map Prod.fst

/-- JavaScript `array.slice(0, e)`: a non-negative end takes a prefix, a
negative end counts from the end of the array (clamped at zero). -/
def jsSliceTo {α : Type} (l : List α) (e : ℤ) : List α :=
  if e < 0 then l.take ((l.length : ℤ) + e).toNat else l.take e.toNat

/-- The body of the per-cluster `forEach` in `handleClusterSampling`
(SamplingPanel.tsx lines 88-96) for the cluster at position `i` with label
`c`: allocate `base` slots plus one more for the first `rem` clusters, cap at
the cluster size, and slice that many entries off the shuffled group.  The
random shuffle is abstracted as the function argument `shuffle`; theorems
assume only that it permutes its input. -/
def takeForCluster (shuffle : List ℕ → List ℕ) (labels : List ℤ)
    (base rem : ℤ) (i : ℕ) (c : ℤ) : List ℕ :=
  let clusterIndices := clusterGroup labels c
  let samplesToTake := base + (if (i : ℤ) < rem then 1 else 0)
  let actualSamples := min samplesToTake (clusterIndices.length : ℤ)
  jsSliceTo (shuffle clusterIndices) actualSamples

/-- The index-selection part of `handleClusterSampling` (SamplingPanel.tsx
lines 68-96).  `base` is `Math.floor(nSamples / k)` and `rem` the JS remainder
`nSamples % k` (sign of the dividend): for `k = 0` the JS values are
non-finite but dead, since the `forEach` then has no iterations; the Lean
zero-division defaults are equally dead. -/
def sampleByCluster (shuffle : List ℕ → List ℕ) (labels : List ℤ)
    (nSamples : ℤ) : List ℕ :=
  let ids := clusterIds labels
  let base := Int.fdiv nSamples ids.length
  let rem := Int.tmod nSamples ids.length
  ((List.range ids.length).map
    fun i => takeForCluster shuffle labels base rem i (ids.getD i 0)).flatten

/-- The coverage computation of `handleClusterSampling` (SamplingPanel.tsx
line 99): `clusterIds.length / (clusterMetadata?.n_clusters || clusterIds.length)`.
`nClustersMeta` is `clusterMetadata?.n_clusters`; the JS `||` falls through to
`clusterIds.length` when the metadata is absent or records zero clusters. -/
def coverageScore (labels : List ℤ) (nClustersMeta : Option ℕ) : ℚ :=
  let k := (clusterIds labels).length
  (k : ℚ) / (match nClustersMeta with
    | some n => if n = 0 then (k : ℚ) else (n : ℚ)
    | none => (k : ℚ))

/-- The quantity the specification calls the numerator of the coverage score:
the number of clusters contributing at least one member to the sampling
result. -/
def contributingClusters (shuffle : List ℕ → List ℕ) (labels : List ℤ)
    (nSamples : ℤ) : ℕ :=
  ((clusterIds labels).filter fun c =>
    (sampleByCluster shuffle labels nSamples).any
      fun i => decide (labels.getD i (-1) = c)).length

/-- The three field types of the statistics engine (api.ts). -/
inductive FieldType where
  | boolean
  | numeric
  | categorical
deriving DecidableEq, Repr

/-- `inferFieldType` (api.ts lines 185-195): scan for the first non-null
value; a boolean makes the field boolean, a number numeric, anything else
categorical; an all-null list defaults to categorical. -/
def inferFieldType : List (Option JsVal) → FieldType
  | [] => .categorical
  | none :: rest => inferFieldType rest
  | some (.bool _) :: _ => .boolean
  | some (.num _) :: _ => .numeric
  | some (.str _) :: _ => .categorical

/-- One `{value, count, percent}` entry of a categorical statistic
(api.ts).  The JS code keys categories by `String(val)`; the category key is
modelled by the runtime value itself (the collision between a number and its
own decimal string under JS string coercion is not modelled). -/
structure CategoryStat where
  value : JsVal
  count : ℕ
  percent : ℚ
deriving DecidableEq, Repr

/-- The `FieldStats` result record (api.ts lines 160-181), one variant per
inferred type. -/
inductive FieldStats where
  | booleanStats (field : String) (trueCount falseCount : ℕ)
      (truePercent falsePercent : ℤ)
  | numericStats (field : String) (minV maxV mean : ℚ)
  | categoricalStats (field : String) (categories : List CategoryStat)
deriving DecidableEq, Repr

/-- The `field` component of a statistic. -/
def FieldStats.fieldName : FieldStats → String
  | .booleanStats f _ _ _ _ => f
  | .numericStats f _ _ _ => f
  | .categoricalStats f _ => f

/-- The `type` tag of a statistic. -/
def FieldStats.ftype : FieldStats → FieldType
  | .booleanStats _ _ _ _ _ => .boolean
  | .numericStats _ _ _ _ => .numeric
  | .categoricalStats _ _ => .categorical

/-- `computeBooleanStats` (api.ts lines 200-213): strict-equality counts of
`true` and `false`, percentages rounded to the nearest whole percent
(`Math.round x = ⌊x + 1/2⌋`, which is `round` on `ℚ`), zero when the
denominator is zero. -/
def computeBooleanStats (field : String) (values : List JsVal) : FieldStats :=
  let trueCount := (values.filter fun v => jsEq v (.bool true)).length
  let falseCount := (values.filter fun v => jsEq v (.bool false)).length
  let total := trueCount + falseCount
  .booleanStats field trueCount falseCount
    (if total > 0 then round (((trueCount : ℚ) / (total : ℚ)) * 100) else 0)
    (if total > 0 then round (((falseCount : ℚ) / (total : ℚ)) * 100) else 0)

/-- The filter `typeof v === number` of `computeNumericStats` (api.ts line
219): keep the values that are numbers.  `NaN` does not exist in exact
arithmetic, so the `!isNaN` conjunct is vacuous here. -/
def numericValues (values : List JsVal) : List ℚ :=
  values.filterMap fun v =>
    match v with
    | .num q => some q
    | _ => none

/-- `computeNumericStats` (api.ts lines 218-244): zeroed stats when no valid
number remains, otherwise min, max and mean over the valid values. -/
def computeNumericStats (field : String) (values : List JsVal) : FieldStats :=
  match numericValues values with
  | [] => .numericStats field 0 0 0
  | q :: rest =>
    .numericStats field (rest.foldl min q) (rest.foldl max q)
      (((q :: rest).foldl (· + ·) 0) / ((q :: rest).length : ℚ))

/-- The insertion-ordered count map of `computeCategoricalStats` (api.ts
lines 249-257): fold over the values, incrementing an existing entry or
appending a new one. -/
def catCounts (values : List JsVal) : List (JsVal × ℕ) :=
  values.foldl
    (fun acc v =>
      if acc.any fun p => decide (p.1 = v) then
        acc.map fun p => if p.1 = v then (p.1, p.2 + 1) else p
      else acc ++ [(v, 1)])
    []

/-- `computeCategoricalStats` (api.ts lines 249-272): per-value counts with
unrounded percents, stably sorted by count descending (the JS comparator
`b.count - a.count` on a stable sort). -/
def computeCategoricalStats (field : String) (values : List JsVal) : FieldStats :=
  let total := values.length
  let categories := (catCounts values).map fun p =>
    CategoryStat.mk p.1 p.2 ((p.2 : ℚ) / (total : ℚ) * 100)
  .categoricalStats field (categories.mergeSort fun a b => decide (b.count ≤ a.count))

/-- The selected slice of one field with null and undefined entries removed:
`Array.from(selectedIndices).map(idx => allValues[idx]).filter(nonNull)`
(api.ts lines 285-288).  `selected` is the iteration order of the JS `Set`. -/
def selectedNonNull (allValues : List (Option JsVal)) (selected : List ℕ) : List JsVal :=
  (selected.map fun idx => allValues.getD idx none).filterMap id

/-- The body of the per-field loop of `computeSelectionStats` (api.ts lines
284-303): the statistics pushed for one field — none when the non-null
selected slice is empty (the `continue`), otherwise one statistic of the
inferred type. -/
def statsForField (p : String × List (Option JsVal)) (selected : List ℕ) : List FieldStats :=
  let selectedValues := selectedNonNull p.2 selected
  if selectedValues.length = 0 then []
  else
    match inferFieldType (selectedValues.map some) with
    | .boolean => [computeBooleanStats p.1 selectedValues]
    | .numeric => [computeNumericStats p.1 selectedValues]
    | .categorical => [computeCategoricalStats p.1 selectedValues]

/-- `computeSelectionStats` (api.ts lines 278-306): empty selection yields no
statistics; otherwise the concatenation of the per-field statistics. -/
def computeSelectionStats (metadata : Metadata) (selected : List ℕ) : List FieldStats :=
  if selected.length = 0 then []
  else (metadata.map fun p => statsForField p selected).flatten

/-! ## Helper lemmas -/

/-- Folding `insert` over a list starting from `s` yields the union with the
list as a set. -/
lemma foldl_insert_eq_union (l : List ℕ) (s : Finset ℕ) :
    l.foldl (fun t i => insert i t) s = s ∪ l.toFinset := by
  induction l generalizing s with
  | nil => simp
  | cons a l ih =>
    simp [ih, List.toFinset_cons, Finset.insert_union, Finset.union_insert]

/-- Folding `erase` over a list starting from `s` yields the set difference
with the list as a set. -/
lemma foldl_erase_eq_sdiff (l : List ℕ) (s : Finset ℕ) :
    l.foldl (fun t i => t.erase i) s = s \ l.toFinset := by
  induction l generalizing s with
  | nil => simp
  | cons a l ih =>
    rw [List.foldl_cons, ih, List.toFinset_cons, Finset.erase_eq, sdiff_sdiff,
      Finset.insert_eq, Finset.sup_eq_union]

/-! ## Claims -/

/-- C1: for every camera state (any positive scale, which covers every zoom of
the supported range), every nonzero viewport width and height, and every
screen point `p`, `worldToScreen (screenToWorld p) = p` — the two transforms
are exact mutual inverses in exact arithmetic, so the floating-point error is
within any tolerance, in particular 1e-6. -/
theorem C1_screen_world_roundtrip (p : ℚ × ℚ) (vs : ViewState) (width height : ℚ)
    (hs : vs.scale ≠ 0) (hw : width ≠ 0) (hh : height ≠ 0) :
    worldToScreen (screenToWorld p vs width height) vs width height = p := by
  obtain ⟨px, py⟩ := p
  simp only [screenToWorld, worldToScreen, Prod.mk.injEq]
  constructor <;> (field_simp; ring)

/-- Witness for C1 at a concrete camera (target (1,2), scale 2^3 = 8),
an 800×600 viewport and screen point (3,4). -/
theorem C1_screen_world_roundtrip_witness :
    worldToScreen (screenToWorld (3, 4) ⟨1, 2, 8⟩ 800 600) ⟨1, 2, 8⟩ 800 600 = (3, 4) :=
  C1_screen_world_roundtrip (3, 4) ⟨1, 2, 8⟩ 800 600 (by norm_num) (by norm_num)
    (by norm_num)

/-- C5: `selectByRegion` with mode `replace` yields the deduplicated set of
the list, `add` the union, `remove` the difference; the concrete scenario
{1,2,3} + add {2,4} = {1,2,3,4}, then remove {2} = {1,3,4}; and `replace`
applied twice with the same list equals `replace` applied once. -/
theorem C5_selectByRegion_modes (S : Finset ℕ) (L : List ℕ) :
    selectByRegion S L "replace" = L.toFinset ∧
    selectByRegion S L "add" = S ∪ L.toFinset ∧
    selectByRegion S L "remove" = S \ L.toFinset ∧
    selectByRegion ({1, 2, 3} : Finset ℕ) [2, 4] "add" = {1, 2, 3, 4} ∧
    selectByRegion (selectByRegion {1, 2, 3} [2, 4] "add") [2] "remove" = {1, 3, 4} ∧
    selectByRegion (selectByRegion S L "replace") L "replace" =
      selectByRegion S L "replace" := by
  refine ⟨rfl, ?_, ?_, by decide, by decide, rfl⟩
  · simp [selectByRegion, foldl_insert_eq_union]
  · simp [selectByRegion, foldl_erase_eq_sdiff]

/-- C9: a polygon with fewer than 3 vertices never contains any point:
`isPointInPolygon` returns `false` (and, being a total function, cannot
throw), so a lasso with fewer than 3 points never selects anything. -/
theorem C9_degenerate_polygon_contains_nothing (p : ℚ × ℚ)
    (polygon : List (ℚ × ℚ)) (h : polygon.length < 3) :
    isPointInPolygon p polygon = false := by
  simp [isPointInPolygon, h]

/-- Witness for C9: a two-vertex polygon does not contain the point (1,1). -/
theorem C9_degenerate_polygon_contains_nothing_witness :
    ([(0, 0), (5, 0)] : List (ℚ × ℚ)).length < 3 ∧
    isPointInPolygon (1, 1) [(0, 0), (5, 0)] = false :=
  ⟨by decide, C9_degenerate_polygon_contains_nothing (1, 1) [(0, 0), (5, 0)] (by decide)⟩

/-- C10: `evaluateFilter` with an operator string that is none of the seven
recognized operators takes the `default` branch and returns `true` (the value
passes, fail-open), in contrast to the fail-closed `false` of a recognized
operator with a type mismatch (here `gt` on a string value). -/
theorem C10_unknown_operator_fail_open (v : JsVal) (f : MetadataFilter)
    (h : f.operator ∉ ["equals", "not_equals", "in", "gt", "lt", "gte", "lte"]) :
    evaluateFilter v f = true ∧
    evaluateFilter (.str "a") ⟨"f", "gt", .scalar (.num 1)⟩ = false := by
  refine ⟨?_, by decide⟩
  simp only [List.mem_cons, List.not_mem_nil, or_false, not_or] at h
  obtain ⟨h1, h2, h3, h4, h5, h6, h7⟩ := h
  simp [evaluateFilter, h1, h2, h3, h4, h5, h6, h7]

/-- Witness for C10 at the unrecognized operator string "contains". -/
theorem C10_unknown_operator_fail_open_witness :
    "contains" ∉ (["equals", "not_equals", "in", "gt", "lt", "gte", "lte"] : List String) ∧
    (evaluateFilter (.num 3) ⟨"x", "contains", .scalar (.num 1)⟩ = true ∧
     evaluateFilter (.str "a") ⟨"f", "gt", .scalar (.num 1)⟩ = false) :=
  ⟨by decide,
   C10_unknown_operator_fail_open (.num 3) ⟨"x", "contains", .scalar (.num 1)⟩ (by decide)⟩

/-- C2: with zero active filters, `applyFilters` returns the empty-set
sentinel, and the caller (the `points` filter of the scatter plot) treats
every index in `[0, N)` as eligible; the outcome is distinguishable from an
empty pass-set under active filters, which hides every point. -/
theorem C2_empty_filters_full_universe (metadata : Metadata) (nEpisodes : ℕ)
    (selected : Finset ℕ) (filters : List MetadataFilter)
    (hf : filters ≠ []) (hempty : applyFilters metadata filters nEpisodes = ∅)
    (hN : 0 < nEpisodes) :
    applyFilters metadata [] nEpisodes = ∅ ∧
    visibleIndices metadata [] nEpisodes selected false = List.range nEpisodes ∧
    visibleIndices metadata filters nEpisodes selected false = [] ∧
    visibleIndices metadata [] nEpisodes selected false ≠
      visibleIndices metadata filters nEpisodes selected false := by
  have h2 : visibleIndices metadata [] nEpisodes selected false = List.range nEpisodes := by
    simp [visibleIndices]
  have h3 : visibleIndices metadata filters nEpisodes selected false = [] := by
    cases filters with
    | nil => exact absurd rfl hf
    | cons f fs => simp [visibleIndices, hempty]
  refine ⟨rfl, h2, h3, ?_⟩
  rw [h2, h3]
  simp [List.range_eq_nil]
  omega

/-- Witness for C2: two episodes whose boolean field is everywhere `false`,
against a filter demanding `true` (an empty pass-set under one active
filter). -/
theorem C2_empty_filters_full_universe_witness :
    applyFilters [("a", [some (JsVal.bool false), some (JsVal.bool false)])] [] 2 = ∅ ∧
    visibleIndices [("a", [some (JsVal.bool false), some (JsVal.bool false)])] [] 2 ∅ false =
      List.range 2 ∧
    visibleIndices [("a", [some (JsVal.bool false), some (JsVal.bool false)])]
      [⟨"a", "equals", .scalar (.bool true)⟩] 2 ∅ false = [] ∧
    visibleIndices [("a", [some (JsVal.bool false), some (JsVal.bool false)])] [] 2 ∅ false ≠
      visibleIndices [("a", [some (JsVal.bool false), some (JsVal.bool false)])]
        [⟨"a", "equals", .scalar (.bool true)⟩] 2 ∅ false :=
  C2_empty_filters_full_universe _ 2 ∅ _ (by decide) (by decide) (by decide)

/-- Projection of `computeNumericStats`: the field name is the one passed in,
in both the all-invalid and the ordinary branch. -/
lemma computeNumericStats_fieldName (f : String) (vals : List JsVal) :
    (computeNumericStats f vals).fieldName = f := by
  rcases hv : numericValues vals with _ | ⟨q, rest⟩ <;>
    simp [computeNumericStats, hv, FieldStats.fieldName]

/-- Projection of `computeNumericStats`: the type tag is numeric. -/
lemma computeNumericStats_ftype (f : String) (vals : List JsVal) :
    (computeNumericStats f vals).ftype = FieldType.numeric := by
  rcases hv : numericValues vals with _ | ⟨q, rest⟩ <;>
    simp [computeNumericStats, hv, FieldStats.ftype]

/-- The `(field, type)` pair of the statistics pushed for one field: nothing
for an entirely-null selected slice, otherwise the field with its inferred
type. -/
lemma statsForField_fields (p : String × List (Option JsVal)) (sel : List ℕ) :
    (statsForField p sel).map (fun s => (s.fieldName, s.ftype)) =
      if (selectedNonNull p.2 sel).length = 0 then []
      else [(p.1, inferFieldType ((selectedNonNull p.2 sel).map some))] := by
  unfold statsForField
  by_cases h : (selectedNonNull p.2 sel).length = 0
  · simp [h]
  · rw [if_neg h, if_neg h]
    cases hty : inferFieldType ((selectedNonNull p.2 sel).map some) with
    | boolean => simp [hty, computeBooleanStats, FieldStats.fieldName, FieldStats.ftype]
    | numeric => simp [hty, computeNumericStats_fieldName, computeNumericStats_ftype]
    | categorical =>
      simp [hty, computeCategoricalStats, FieldStats.fieldName, FieldStats.ftype]

/-- C7 (amended): appending a filter never grows the pass-set as long as the
shortened list is still non-empty; when the last filter is the only one, the
raw return value of `applyFilters` on the empty list is the empty-set
sentinel, so the literal containment fails (see the counterexample). -/
theorem C7_appending_filter_shrinks (metadata : Metadata)
    (filters : List MetadataFilter) (N : ℕ) (h : filters.dropLast ≠ []) :
    applyFilters metadata filters N ⊆ applyFilters metadata filters.dropLast N := by
  intro idx hidx
  have hfil : filters ≠ [] := by
    intro hnil
    rw [hnil] at h
    exact h rfl
  rw [applyFilters, if_neg (fun hc => hfil (List.length_eq_zero.mp hc))] at hidx
  rw [applyFilters, if_neg (fun hc => h (List.length_eq_zero.mp hc))]
  rw [Finset.mem_filter] at hidx ⊢
  refine ⟨hidx.1, ?_⟩
  have hall := hidx.2
  rw [episodePasses, List.all_eq_true] at hall ⊢
  exact fun f hfmem => hall f ((List.dropLast_sublist filters).subset hfmem)

/-- Counterexample for C7 as stated: with a single filter that episode 0
passes, the pass-set is `{0}`, while removing the last (only) filter returns
the empty-set sentinel; `{0} ⊆ ∅` fails. -/
theorem C7_appending_filter_shrinks_cex :
    ¬ (applyFilters [("a", [some (JsVal.num 1)])]
         [⟨"a", "equals", FilterValue.scalar (.num 1)⟩] 1 ⊆
       applyFilters [("a", [some (JsVal.num 1)])]
         ([⟨"a", "equals", FilterValue.scalar (.num 1)⟩] :
           List MetadataFilter).dropLast 1) := by
  decide

/-- Witness for C7 with two filters over a two-episode dataset. -/
theorem C7_appending_filter_shrinks_witness :
    ([⟨"a", "gte", FilterValue.scalar (.num 1)⟩,
      ⟨"a", "lte", FilterValue.scalar (.num 1)⟩] :
        List MetadataFilter).dropLast ≠ [] ∧
    applyFilters [("a", [some (JsVal.num 1), some (JsVal.num 2)])]
      [⟨"a", "gte", FilterValue.scalar (.num 1)⟩,
       ⟨"a", "lte", FilterValue.scalar (.num 1)⟩] 2 ⊆
    applyFilters [("a", [some (JsVal.num 1), some (JsVal.num 2)])]
      ([⟨"a", "gte", FilterValue.scalar (.num 1)⟩,
        ⟨"a", "lte", FilterValue.scalar (.num 1)⟩] :
          List MetadataFilter).dropLast 2 :=
  ⟨by decide, C7_appending_filter_shrinks _ _ 2 (by decide)⟩

/-- C8 (amended): an empty selection yields no statistics and no error; a
non-empty selection yields exactly one statistic per field whose selected
slice holds at least one non-null value, typed by the first non-null selected
value in priority order boolean > numeric > categorical; a field whose
selected slice is entirely null is skipped (not defaulted to categorical —
see the counterexample). -/
theorem C8_selection_stats (metadata : Metadata) (selected : List ℕ)
    (hsel : selected ≠ []) :
    computeSelectionStats metadata [] = [] ∧
    (computeSelectionStats metadata selected).map (fun s => (s.fieldName, s.ftype)) =
      (metadata.filter fun p => decide ((selectedNonNull p.2 selected).length ≠ 0)).map
        (fun p => (p.1, inferFieldType ((selectedNonNull p.2 selected).map some))) := by
  refine ⟨rfl, ?_⟩
  rw [computeSelectionStats, if_neg (by simp [List.length_eq_zero, hsel])]
  induction metadata with
  | nil => rfl
  | cons p rest ih =>
    rw [List.map_cons, List.flatten_cons, List.map_append, ih, List.filter_cons,
      statsForField_fields]
    by_cases hp : (selectedNonNull p.2 selected).length = 0
    · simp [hp]
    · simp [hp]

/-- Counterexample for C8 as stated: the selection `[0]` is non-empty and the
field "a" exists, but its selected slice is entirely null, so the engine
returns no statistic at all for it instead of a categorical default. -/
theorem C8_selection_stats_cex :
    computeSelectionStats [("a", [none])] [0] = [] ∧ ([0] : List ℕ) ≠ [] :=
  ⟨rfl, by decide⟩

/-- Witness for C8: boolean, categorical and numeric fields each receive one
statistic of the inferred type; the all-null field is dropped. -/
theorem C8_selection_stats_witness :
    computeSelectionStats
      [("flag", [some (JsVal.bool true)]), ("name", [some (JsVal.str "x")]),
       ("score", [some (JsVal.num 2)]), ("gap", [none])] [] = [] ∧
    (computeSelectionStats
      [("flag", [some (JsVal.bool true)]), ("name", [some (JsVal.str "x")]),
       ("score", [some (JsVal.num 2)]), ("gap", [none])] [0]).map
        (fun s => (s.fieldName, s.ftype)) =
      (([("flag", [some (JsVal.bool true)]), ("name", [some (JsVal.str "x")]),
         ("score", [some (JsVal.num 2)]), ("gap", [none])] : Metadata).filter
        fun p => decide ((selectedNonNull p.2 [0]).length ≠ 0)).map
        (fun p => (p.1, inferFieldType ((selectedNonNull p.2 [0]).map some))) :=
  C8_selection_stats _ [0] (by decide)

/-- Floor division of naturals embedded in the integers: `Math.floor(m / k)`
on non-negative operands is ordinary natural division. -/
lemma natCast_fdiv (m k : ℕ) : Int.fdiv (m : ℤ) (k : ℤ) = ((m / k : ℕ) : ℤ) := by
  rw [Int.fdiv_eq_tdiv (by positivity) (by positivity), Int.ofNat_tdiv]

/-- The JS remainder of naturals embedded in the integers is the natural
remainder. -/
lemma natCast_tmod (m k : ℕ) : Int.tmod (m : ℤ) (k : ℤ) = ((m % k : ℕ) : ℤ) := by
  rw [Int.tmod_eq_emod (by positivity) (by positivity)]
  exact (Int.natCast_mod m k).symm

/-- A cluster allocated zero slots contributes nothing. -/
lemma takeForCluster_zero (shuffle : List ℕ → List ℕ) (labels : List ℤ)
    (i : ℕ) (c : ℤ) :
    takeForCluster shuffle labels 0 0 i c = [] := by
  have h1 : ¬ ((i : ℤ) < 0) := not_lt.mpr (Int.natCast_nonneg i)
  have h2 : min (0 : ℤ) ((clusterGroup labels c).length : ℤ) = 0 :=
    min_eq_left (Int.natCast_nonneg _)
  simp [takeForCluster, jsSliceTo, h1, h2]

/-- C3 (amended): the reported coverage score is
`k / (clusterMetadata.n_clusters when present and non-zero, else k)` with `k`
the number of distinct non-noise labels present; it does not depend on the
drawn sample at all, and equals `1.0` whenever the cluster metadata is absent
or records exactly `k` clusters — even when some clusters contribute no
member (see the counterexample against the per-contribution formula). -/
theorem C3_coverage_score (labels : List ℤ) (nClustersMeta : Option ℕ)
    (hk : 1 ≤ (clusterIds labels).length)
    (hmeta : nClustersMeta = none ∨ nClustersMeta = some (clusterIds labels).length) :
    coverageScore labels nClustersMeta = 1 := by
  have hne : ((clusterIds labels).length : ℚ) ≠ 0 := Nat.cast_ne_zero.mpr (by omega)
  have hz : ¬ ((clusterIds labels).length = 0) := by omega
  rcases hmeta with h | h <;> subst h <;>
    simp [coverageScore, div_self hne, hz]

/-- Witness for C3 with two singleton clusters and absent cluster metadata. -/
theorem C3_coverage_score_witness :
    1 ≤ (clusterIds [0, 1]).length ∧ coverageScore [0, 1] none = 1 :=
  ⟨by decide, C3_coverage_score [0, 1] none (by decide) (Or.inl rfl)⟩

/-- Counterexample for C3 as stated: five singleton clusters, three requested
samples.  Only three clusters contribute a member, so the claimed score would
be 3/5; the code reports `clusterIds.length / clusterIds.length = 1.0`. -/
theorem C3_coverage_score_cex :
    contributingClusters id [0, 1, 2, 3, 4] 3 = 3 ∧
    (clusterIds [0, 1, 2, 3, 4]).length = 5 ∧
    coverageScore [0, 1, 2, 3, 4] none = 1 ∧
    coverageScore [0, 1, 2, 3, 4] none ≠
      (contributingClusters id [0, 1, 2, 3, 4] 3 : ℚ) /
        ((clusterIds [0, 1, 2, 3, 4]).length : ℚ) := by
  refine ⟨by decide, by decide, ?_, ?_⟩
  · rw [show coverageScore [0, 1, 2, 3, 4] none = (5 : ℚ) / 5 from rfl]
    norm_num
  · rw [show coverageScore [0, 1, 2, 3, 4] none = (5 : ℚ) / 5 from rfl,
      show contributingClusters id [0, 1, 2, 3, 4] 3 = 3 from by decide,
      show (clusterIds [0, 1, 2, 3, 4]).length = 5 from by decide]
    norm_num

/-- C6 (amended): with zero usable clusters or `n_samples = 0` the sampler
returns an empty selection (and, being total, cannot throw).  For negative
`n_samples` the claim fails: JS `slice` with a negative end keeps a non-empty
prefix (see the counterexample). -/
theorem C6_degenerate_sampler_empty (shuffle : List ℕ → List ℕ) (labels : List ℤ)
    (nSamples : ℤ)
    (h : (clusterIds labels).length = 0 ∨ nSamples = 0) :
    sampleByCluster shuffle labels nSamples = [] := by
  rcases h with h | h
  · simp [sampleByCluster, h]
  · subst h
    rw [sampleByCluster]
    rw [List.flatten_eq_nil_iff]
    intro l hl
    simp only [List.mem_map, List.mem_range] at hl
    obtain ⟨i, _, rfl⟩ := hl
    rw [Int.zero_fdiv, Int.zero_tmod]
    exact takeForCluster_zero shuffle labels i _

/-- Witness for C6: all-noise labels with positive `n_samples`, and three
one-cluster labels with `n_samples = 0`, both yield the empty selection. -/
theorem C6_degenerate_sampler_empty_witness :
    ((clusterIds [-1, -1]).length = 0 ∨ (5 : ℤ) = 0) ∧
    sampleByCluster id [-1, -1] 5 = [] ∧
    sampleByCluster id [0, 0, 0] 0 = [] :=
  ⟨Or.inl (by decide),
   C6_degenerate_sampler_empty id [-1, -1] 5 (Or.inl (by decide)),
   C6_degenerate_sampler_empty id [0, 0, 0] 0 (Or.inr rfl)⟩

/-- Counterexample for C6 as stated: labels `[0,0,0]` and `n_samples = -1`.
`base = floor(-1/1) = -1`, remainder `0`, so the single cluster takes
`slice(0, -1)` of its three members — the first two — and the result is not
empty. -/
theorem C6_degenerate_sampler_empty_cex :
    sampleByCluster id [0, 0, 0] (-1) = [0, 1] ∧
    sampleByCluster id [0, 0, 0] (-1) ≠ [] := by
  constructor <;> decide

/-- The enumeration order of the sampler is ascending label order: the list
of cluster ids is strictly sorted. -/
lemma clusterIds_sorted (labels : List ℤ) :
    List.Sorted (· < ·) (clusterIds labels) := by
  have hs : List.Sorted (· ≤ ·) (clusterIds labels) :=
    List.sorted_insertionSort _ _
  have hn : (clusterIds labels).Nodup :=
    ((List.perm_insertionSort _ _).nodup_iff).mpr (List.nodup_dedup _)
  exact hs.lt_of_le hn

/-- Length of one cluster contribution: with `base = floor(n/k)` and
`rem = n mod k` for a positive request `n`, the cluster at position `i` with
label `c` contributes `min(allocation, cluster size)` indices, where the
allocation is `base + 1` for `i < rem` and `base` otherwise. -/
lemma takeForCluster_length (shuffle : List ℕ → List ℕ)
    (hshuffle : ∀ l, (shuffle l).length = l.length)
    (labels : List ℤ) (n k i : ℕ) (c : ℤ) :
    (takeForCluster shuffle labels (Int.fdiv (n : ℤ) (k : ℤ))
        (Int.tmod (n : ℤ) (k : ℤ)) i c).length =
      min (n / k + if i < n % k then 1 else 0) (clusterGroup labels c).length := by
  have hite : (if (i : ℤ) < ((n % k : ℕ) : ℤ) then (1 : ℤ) else 0)
      = ((if i < n % k then 1 else 0 : ℕ) : ℤ) := by
    by_cases h : i < n % k
    · rw [if_pos (by exact_mod_cast h), if_pos h]
      rfl
    · rw [if_neg (by exact_mod_cast h), if_neg h]
      rfl
  simp only [takeForCluster, jsSliceTo]
  rw [natCast_fdiv, natCast_tmod, hite, ← Nat.cast_add, ← Nat.cast_min,
    if_neg (not_lt.mpr (Int.natCast_nonneg _)), Int.toNat_natCast,
    List.length_take, hshuffle]
  omega

/-- Sum of the per-cluster allocations over `k` clusters: `k` times the base
plus one extra for each of the first `min r k` clusters. -/
lemma sum_alloc (k b r : ℕ) :
    ((List.range k).map fun i => b + if i < r then 1 else 0).sum = k * b + min r k := by
  induction k with
  | zero => simp
  | succ k ih =>
    rw [List.range_succ, List.map_append, List.sum_append, ih]
    by_cases h : k < r
    · simp only [List.map_cons, List.map_nil, List.sum_cons, List.sum_nil,
        if_pos h, Nat.add_zero]
      have hmin1 : min r k = k := by omega
      have hmin2 : min r (k + 1) = k + 1 := by omega
      rw [hmin1, hmin2, Nat.succ_mul]
      ring
    · simp only [List.map_cons, List.map_nil, List.sum_cons, List.sum_nil,
        if_neg h, Nat.add_zero]
      have hmin1 : min r k = r := by omega
      have hmin2 : min r (k + 1) = r := by omega
      rw [hmin1, hmin2, Nat.succ_mul]
      ring

/-- C4: for `n > 0` requested samples and at least one usable cluster, the
sampler enumerates clusters in ascending label order; the cluster at position
`i` is allocated `floor(n/k) + 1` draws when `i < n mod k` and `floor(n/k)`
otherwise, and contributes the minimum of its allocation and its member
count, so the total output never exceeds `n`.  (The concrete `[10,10,10]`,
`n = 25` instance — per-cluster counts 9, 8, 8, total 25 — is checked in the
witness.) -/
theorem C4_even_allocation (shuffle : List ℕ → List ℕ) (labels : List ℤ) (n : ℕ)
    (hshuffle : ∀ l, (shuffle l).length = l.length) (_hn : 0 < n)
    (hk : 0 < (clusterIds labels).length) :
    List.Sorted (· < ·) (clusterIds labels) ∧
    (∀ i : ℕ, i < (clusterIds labels).length →
      (takeForCluster shuffle labels
          (Int.fdiv (n : ℤ) ((clusterIds labels).length : ℤ))
          (Int.tmod (n : ℤ) ((clusterIds labels).length : ℤ))
          i ((clusterIds labels).getD i 0)).length =
        min (n / (clusterIds labels).length +
            if i < n % (clusterIds labels).length then 1 else 0)
          (clusterGroup labels ((clusterIds labels).getD i 0)).length) ∧
    (sampleByCluster shuffle labels (n : ℤ)).length ≤ n := by
  refine ⟨clusterIds_sorted labels, ?_, ?_⟩
  · intro i _
    exact takeForCluster_length shuffle hshuffle labels n _ i _
  · simp only [sampleByCluster]
    rw [List.length_flatten, List.map_map]
    have h1 : ((List.range (clusterIds labels).length).map
        (List.length ∘ fun i => takeForCluster shuffle labels
          (Int.fdiv (n : ℤ) (((clusterIds labels).length : ℕ) : ℤ))
          (Int.tmod (n : ℤ) (((clusterIds labels).length : ℕ) : ℤ))
          i ((clusterIds labels).getD i 0))).sum ≤
        ((List.range (clusterIds labels).length).map
          fun i => n / (clusterIds labels).length +
            if i < n % (clusterIds labels).length then 1 else 0).sum := by
      apply List.sum_le_sum
      intro i hi
      simp only [Function.comp_apply]
      rw [takeForCluster_length shuffle hshuffle labels n _ i _]
      exact Nat.min_le_left _ _
    have h2 := sum_alloc (clusterIds labels).length
      (n / (clusterIds labels).length) (n % (clusterIds labels).length)
    have hmin : min (n % (clusterIds labels).length) (clusterIds labels).length =
        n % (clusterIds labels).length :=
      min_eq_left (Nat.mod_lt n hk).le
    refine le_trans h1 ?_
    rw [h2, hmin]
    exact (Nat.div_add_mod n (clusterIds labels).length).le

/-- Three clusters of ten members each, labelled 0, 1 and 2. -/
def threeClusters : List ℤ :=
  List.replicate 10 0 ++ List.replicate 10 1 ++ List.replicate 10 2

/-- Witness for C4 on three clusters of sizes [10,10,10] with `n = 25`:
`base = 8`, `remainder = 1`; the clusters contribute 9, 8 and 8 members in
ascending label order, total exactly 25 ≤ 25. -/
theorem C4_even_allocation_witness :
    List.Sorted (· < ·) (clusterIds threeClusters) ∧
    (sampleByCluster id threeClusters (25 : ℤ)).length ≤ 25 ∧
    (sampleByCluster id threeClusters (25 : ℤ)).length = 25 ∧
    (takeForCluster id threeClusters (Int.fdiv 25 3) (Int.tmod 25 3) 0
        ((clusterIds threeClusters).getD 0 0)).length = 9 ∧
    (takeForCluster id threeClusters (Int.fdiv 25 3) (Int.tmod 25 3) 1
        ((clusterIds threeClusters).getD 1 0)).length = 8 ∧
    (takeForCluster id threeClusters (Int.fdiv 25 3) (Int.tmod 25 3) 2
        ((clusterIds threeClusters).getD 2 0)).length = 8 := by
  have h := C4_even_allocation id threeClusters 25 (fun l => rfl)
    (by norm_num) (by decide)
  exact ⟨h.1, h.2.2, by decide, by decide, by decide, by decide⟩
